import Mathlib

/-!
Shallow embedding of the GraphQL client core
(`packages/graphql-client/src/graphql-client/graphql-client.ts`) together
with models of the helper modules the client imports (`constants`,
`utilities`, `http-fetch`).  The helper modules are not part of the source
tree, so their definitions are modelled from the specification and are
marked as such in their doc comments.  Everything else is translated
directly from `graphql-client.ts`.
-/

namespace GraphQLClientModel

/-- JSON values, used for GraphQL `data`, `errors` and `extensions`
payload fields. -/
inductive JValue where
  | null : JValue
  | bool : Bool → JValue
  | num : Int → JValue
  | str : String → JValue
  | arr : List JValue → JValue
  | obj : List (String × JValue) → JValue
deriving Repr

/-- A component of a GraphQL incremental-delivery `path`: a string key
(object field) or a numeric index (array position). -/
inductive PathKey where
  | key : String → PathKey
  | idx : Nat → PathKey
deriving Repr, DecidableEq

/-! ## String helpers

JavaScript string primitives used by the client (`indexOf`,
`lastIndexOf`, `slice`, `includes`, `startsWith`), modelled over the
character list of a Lean `String`.  Positions are character positions. -/

/-- All positions at which `pat` occurs in `s`. -/
def occIdxs (s pat : String) : List Nat :=
  (List.range (s.length + 1)).filter (fun i => pat.toList.isPrefixOf (s.toList.drop i))

/-- Position of the first occurrence of `pat` in `s`
(JS `indexOf`, with `none` for `-1`). -/
def firstIdxStr (s pat : String) : Option Nat :=
  (occIdxs s pat).head?

/-- Position of the last occurrence of `pat` in `s`
(JS `lastIndexOf`, with `none` for `-1`). -/
def lastIdxStr (s pat : String) : Option Nat :=
  (occIdxs s pat).getLast?

/-- JS `String.includes`. -/
def strContains (s pat : String) : Bool :=
  (firstIdxStr s pat).isSome

/-- JS `String.slice(0, n)`. -/
def takeStr (s : String) (n : Nat) : String :=
  (s.toList.take n).asString

/-- JS `String.slice(n)` (start clamped to the length). -/
def dropStr (s : String) (n : Nat) : String :=
  (s.toList.drop n).asString

/-- JS `String.startsWith`. -/
def startsWithStr (s pat : String) : Bool :=
  pat.toList.isPrefixOf s.toList

/-- JS `String.trim` (strip leading and trailing whitespace). -/
def trimStr (s : String) : String :=
  ((((s.toList.dropWhile Char.isWhitespace).reverse).dropWhile
    Char.isWhitespace).reverse).asString

/-- Splitting on a (non-empty) separator, by repeatedly cutting at the
first occurrence; the fuel is the string length, which always
suffices. -/
def splitOnCharsFuel (sep : List Char) : Nat → List Char → List (List Char)
  | 0, s => [s]
  | fuel + 1, s =>
    match ((List.range (s.length + 1)).filter
        (fun i => sep.isPrefixOf (s.drop i))).head? with
    | none => [s]
    | some i => s.take i :: splitOnCharsFuel sep fuel (s.drop (i + sep.length))

/-- JS `String.split` with a non-empty string separator. -/
def splitOnStr (s sep : String) : List String :=
  if sep = "" then [s]
  else (splitOnCharsFuel sep.toList (s.length + 1) s.toList).map List.asString

/-! ## Constants

Modelled from the spec: the `constants` module is not in the source
tree; the values below are the ones named by the specification
(client label, error messages, content types, header separator). -/

/-- Modelled from the spec: the client label `GraphQL Client`. -/
def CLIENT : String := "GraphQL Client"

/-- Modelled from the spec: message used when a payload carries GraphQL errors. -/
def GQL_API_ERROR : String :=
  "An error occurred while fetching from the API. Review 'graphQLErrors' for details."

/-- Modelled from the spec: message used when a payload has neither data nor errors. -/
def NO_DATA_OR_ERRORS_ERROR : String :=
  "An unknown error has occurred. The API did not return a data object or any errors in its response."

/-- Modelled from the spec: stem of the unexpected content-type message. -/
def UNEXPECTED_CONTENT_TYPE_ERROR : String :=
  "Response returned unexpected Content-Type:"

/-- Modelled from the spec: the JSON content type. -/
def CONTENT_TYPES_json : String := "application/json"

/-- Modelled from the spec: the multipart content type. -/
def CONTENT_TYPES_multipart : String := "multipart/mixed"

/-- Modelled from the spec: the MIME header/body separator. -/
def HEADER_SEPARATOR : String := "\r\n\r\n"

/-! ## Validation helpers (`utilities` module) -/

/-- Modelled from the spec: `formatErrorMessage` prepends
`GraphQL Client: ` unless the message is already prefixed with the
client label. -/
def formatErrorMessage (msg : String) : String :=
  if startsWithStr msg CLIENT then msg else CLIENT ++ ": " ++ msg

/-- Modelled from the spec: the exact message produced for an invalid
`retries` value. -/
def retriesValidationMsg (n : Int) : String :=
  CLIENT ++ ": The provided \"retries\" value (" ++ toString n ++
    ") is invalid - it cannot be less than 0 or greater than 3"

/-- Modelled from the spec: `validateRetries` requires the value, when
present, to lie in `[0, 3]`; violation fails with the exact message. -/
def validateRetries (retries : Option Int) : Except String Unit :=
  match retries with
  | none => .ok ()
  | some n => if n < 0 ∨ n > 3 then .error (retriesValidationMsg n) else .ok ()

/-! ## Defer detection (`DEFER_OPERATION_REGEX`) -/

/-- A regex word character (`\w`). -/
def isWordChar (c : Char) : Bool := c.isAlphanum || c == '_'

/-- Modelled from the spec: match of the tail of the defer regex
(`\s*defer\b`, case-insensitive) against a character list that follows
an `@`. -/
def deferAfterAt (cs : List Char) : Bool :=
  match (cs.dropWhile (fun c => c.isWhitespace)).map Char.toLower with
  | 'd' :: 'e' :: 'f' :: 'e' :: 'r' :: tail =>
    match tail with
    | [] => true
    | t :: _ => !(isWordChar t)
  | _ => false

/-- Modelled from the spec: the textual defer-detection regex
`/@\s*defer\b/i`, tested against the operation string. -/
def deferMatch (s : String) : Bool :=
  s.toList.tails.any (fun t =>
    match t with
    | '@' :: rest => deferAfterAt rest
    | _ => false)

/-! ## Path lift (`buildDataObjectByPath`) and projection -/

/-- Modelled from the spec: `buildDataObjectByPath` lifts `data` into a
nested structure so that it resides at `path`; numeric indices construct
arrays, string keys construct objects. -/
def buildDataObjectByPath : List PathKey → JValue → JValue
  | [], d => d
  | .key s :: rest, d => .obj [(s, buildDataObjectByPath rest d)]
  | .idx n :: rest, d =>
      .arr (List.replicate n JValue.null ++ [buildDataObjectByPath rest d])

/-- Projection of a JSON value at a path: object fields by key lookup,
array elements by index. -/
def getAtPath : List PathKey → JValue → Option JValue
  | [], v => some v
  | .key s :: rest, .obj fields => (fields.lookup s).bind (getAtPath rest)
  | .idx n :: rest, .arr xs => xs[n]?.bind (getAtPath rest)
  | _ :: _, _ => none

/-! ## Deep merge (`buildCombinedDataObject`) -/

mutual
/-- Modelled from the spec: deep merge of two JSON values — objects are
combined key-by-key, arrays index-wise, scalars are overwritten by the
later value.  The `fuel` argument bounds the recursion depth; any fuel
at least the structural depth of the first argument computes the merge. -/
def combineJFuel : Nat → JValue → JValue → JValue
  | 0, _, b => b
  | fuel + 1, .obj a, .obj b => .obj (combineFieldsFuel fuel a b)
  | fuel + 1, .arr a, .arr b => .arr (combineArrFuel fuel a b)
  | _ + 1, _, b => b

/-- Key-by-key merge of object field lists: fields of the first object
are updated with (and merged against) the matching fields of the second;
fields only in the second are appended. -/
def combineFieldsFuel : Nat → List (String × JValue) → List (String × JValue) →
    List (String × JValue)
  | _, [], b => b
  | fuel, (k, v) :: rest, b =>
      (match b.lookup k with
       | some w => (k, combineJFuel fuel v w)
       | none => (k, v)) ::
        combineFieldsFuel fuel rest (b.filter (fun kv => kv.1 ≠ k))

/-- Index-wise merge of arrays; the longer tail is kept. -/
def combineArrFuel : Nat → List JValue → List JValue → List JValue
  | _, a, [] => a
  | _, [], b => b
  | fuel, x :: xs, y :: ys => combineJFuel fuel x y :: combineArrFuel fuel xs ys
end

mutual
/-- Structural size of a JSON value, used to pick a sufficient merge fuel. -/
def jSize : JValue → Nat
  | .obj l => 1 + jSizeFields l
  | .arr l => 1 + jSizeList l
  | _ => 1

/-- Structural size of an object field list. -/
def jSizeFields : List (String × JValue) → Nat
  | [] => 0
  | (_, v) :: rest => jSize v + jSizeFields rest + 1

/-- Structural size of a value list. -/
def jSizeList : List JValue → Nat
  | [] => 0
  | v :: rest => jSize v + jSizeList rest + 1
end

/-- Deep merge of two JSON values. -/
def combineJ (a b : JValue) : JValue :=
  combineJFuel (jSize a) a b

/-- Modelled from the spec: `buildCombinedDataObject` folds a list of
data objects into one by deep merge, starting from the first. -/
def buildCombinedDataObject : List JValue → JValue
  | [] => .obj []
  | x :: xs => xs.foldl combineJ x

/-- `Object.keys(v).length === 0`: no enumerable keys. -/
def jsKeysEmpty : JValue → Bool
  | .obj l => l.isEmpty
  | .arr l => l.isEmpty
  | _ => true

/-- Modelled from the spec: `getKeyValueIfValid` keeps a value only when
it is present and neither `null` nor an empty object. -/
def validJ : Option JValue → Option JValue
  | none => none
  | some v => if jsKeysEmpty v && !(match v with | .arr _ => true | _ => false)
      then none else some v

/-! ## Response model

The HTTP response as the client observes it: `status`, `statusText`,
`ok`, the `content-type` header (already defaulted to `""`), the parsed
JSON body (the result of `response.json()`) and — for the multipart
branch — the parsed stream payloads, batched the way the multipart
parser batches them.  JSON text parsing itself is the external
`JSON.parse`; the model works with its output. -/

/-- The destructured result of `response.json()`:
`{ errors, data, extensions }`, each field absent-or-falsy encoded as
`none`. -/
structure FetchPayload where
  errors : Option JValue
  data : Option JValue
  extensions : Option JValue
deriving Repr

/-- One parsed multipart payload
`{ data, path, hasNext, extensions, errors }`. -/
structure StreamPayload where
  data : Option JValue
  path : Option (List PathKey)
  hasNext : Bool
  extensions : Option JValue
  errors : Option (List JValue)
deriving Repr

/-- The observable HTTP response. -/
structure HttpResponse where
  ok : Bool
  status : Nat
  statusText : String
  contentType : String
  payload : FetchPayload
  streamBatches : List (List StreamPayload)
deriving Repr

/-- The `errors` block of a client response. -/
structure ResponseErrorsM where
  networkStatusCode : Option Nat
  message : Option String
  graphQLErrors : Option JValue
  response : Option HttpResponse
deriving Repr

/-- A client response `{ data?, extensions?, errors? }`. -/
structure ClientResponseM where
  data : Option JValue
  extensions : Option JValue
  errors : Option ResponseErrorsM
deriving Repr

/-- `processJSONResponse`: parse the JSON body and keep `data` and
`extensions` when present; attach an `errors` block exactly when the
payload has errors or lacks a data field (from
`graphql-client.ts` lines 76–97). -/
def processJSONResponse (response : HttpResponse) : ClientResponseM :=
  let p := response.payload
  { data := p.data
    extensions := p.extensions
    errors :=
      if p.errors.isSome || p.data.isNone then
        some
          { networkStatusCode := some response.status
            message := some (formatErrorMessage
              (if p.errors.isSome then GQL_API_ERROR else NO_DATA_OR_ERRORS_ERROR))
            graphQLErrors := p.errors
            response := some response }
      else none }

/-- The response-classification part of `generateRequest`
(`graphql-client.ts` lines 151–177): not-ok responses and unexpected
content types become error objects, JSON responses are parsed. -/
def requestHandle (response : HttpResponse) : ClientResponseM :=
  if !response.ok then
    { data := none, extensions := none
      errors := some
        { networkStatusCode := some response.status
          message := some (formatErrorMessage response.statusText)
          graphQLErrors := none
          response := some response } }
  else if !(strContains response.contentType CONTENT_TYPES_json) then
    { data := none, extensions := none
      errors := some
        { networkStatusCode := some response.status
          message := some (formatErrorMessage
            (UNEXPECTED_CONTENT_TYPE_ERROR ++ " " ++ response.contentType))
          graphQLErrors := none
          response := some response } }
  else
    processJSONResponse response

/-! ## Retry executor (`generateHttpFetch`) -/

/-- One transport attempt: either the adapter threw (network abort) or
it produced a response. -/
inductive TransportOutcome where
  | threw : String → TransportOutcome
  | resp : HttpResponse → TransportOutcome

/-- Modelled from the spec: the message produced when the network retry
budget is exhausted. -/
def maxRetriesMsg (maxRetries : Nat) (lastMsg : String) : String :=
  "Attempted maximum number of " ++ toString maxRetries ++
    " network retries. Last message - " ++ lastMsg

/-- Modelled from the spec: the retry executor `httpFetch`.  The
transport is a map from the attempt counter (starting at 1) to that
attempt's outcome.  On a transport throw within the budget it retries;
on exhaustion it throws (`maxRetriesMsg`, or the plain formatted message
when the budget is 0).  A response with status 429 or 503 is retried
within the budget and returned on exhaustion; any other response is
returned immediately.  The second component counts transport attempts. -/
def httpFetch (transport : Nat → TransportOutcome) (count maxRetries : Nat) :
    Except String HttpResponse × Nat :=
  match transport count with
  | .threw msg =>
      if h : count ≤ maxRetries then
        let r := httpFetch transport (count + 1) maxRetries
        (r.1, r.2 + 1)
      else if maxRetries = 0 then (.error (formatErrorMessage msg), 1)
      else (.error (formatErrorMessage (maxRetriesMsg maxRetries msg)), 1)
  | .resp r =>
      if h : (r.status = 429 ∨ r.status = 503) ∧ count ≤ maxRetries then
        let x := httpFetch transport (count + 1) maxRetries
        (x.1, x.2 + 1)
      else (.ok r, 1)
termination_by maxRetries + 1 - count
decreasing_by
  · omega
  · omega

/-- `generateFetch` (`graphql-client.ts` lines 99–136): validate the
per-call `retries` override, then call the executor with attempt
counter 1 and budget `override ?? config`.  The second component counts
transport attempts (0 when validation fails). -/
def fetchModel (configRetries : Int) (overrideRetries : Option Int)
    (transport : Nat → TransportOutcome) : Except String HttpResponse × Nat :=
  match validateRetries overrideRetries with
  | .error e => (.error e, 0)
  | .ok _ => httpFetch transport 1 ((overrideRetries.getD configRetries).toNat)

/-- Modelled from the spec: `createGraphQLClient` validates the
configured `retries` at construction time. -/
def createClientValidation (configRetries : Int) : Except String Unit :=
  validateRetries (some configRetries)

/-- The try/catch body of `generateRequest`
(`graphql-client.ts` lines 150–184): a failure of the awaited fetch is
caught and turned into a plain error object; a response is
classified. -/
def requestCatch : Except String HttpResponse → ClientResponseM
  | .error e =>
      { data := none, extensions := none
        errors := some
          { networkStatusCode := none, message := some e
            graphQLErrors := none, response := none } }
  | .ok r => requestHandle r

/-- `generateRequest` (`graphql-client.ts` lines 138–186): the defer
guard throws synchronously (`.error`); everything after it resolves
(`.ok`).  The second component counts transport attempts. -/
def requestFull (operation : String) (configRetries : Int)
    (overrideRetries : Option Int) (transport : Nat → TransportOutcome) :
    Except String ClientResponseM × Nat :=
  if deferMatch operation then
    (.error (formatErrorMessage
      "This operation will result in a streamable response - use requestStream() instead."), 0)
  else
    let f := fetchModel configRetries overrideRetries transport
    (.ok (requestCatch f.1), f.2)

/-! ## Multipart stream parser (`readStreamChunk`) -/

/-- Extraction of one part body from a boundary-delimited segment
(`graphql-client.ts` lines 229–236): drop everything up to and
including the first `\r\n\r\n` header separator (JS
`chunk.indexOf(sep) + sep.length` clamps to `sep.length - 1` characters
dropped when the separator is absent), then trim. -/
def stripHeader (chunk : String) : String :=
  trimStr (dropStr chunk
    (match firstIdxStr chunk HEADER_SEPARATOR with
     | some k => k + HEADER_SEPARATOR.length
     | none => HEADER_SEPARATOR.length - 1))

/-- The part bodies extracted from the complete prefix of the buffer
(`graphql-client.ts` lines 226–236): split on the boundary, keep the
segments that are not blank, strip each segment's MIME header. -/
def chunkBodiesOf (boundary fullResponses : String) : List String :=
  ((splitOnStr fullResponses boundary).filter
    (fun c => (trimStr c).length > 0)).map stripHeader

/-- One step of the buffered boundary scan
(`graphql-client.ts` lines 219–247): append the incoming text chunk to
the buffer; if the buffer now contains the boundary, emit the part
bodies of the prefix up to the last boundary occurrence and keep the
remainder (cleared when its trimmed form is the `--` terminator). -/
def stepBuf (boundary buf chunk : String) : String × Option (List String) :=
  let t := buf ++ chunk
  match lastIdxStr t boundary with
  | none => (t, none)
  | some j =>
      let bodies := chunkBodiesOf boundary (takeStr t j)
      let rest := dropStr t (j + boundary.length)
      let buf2 := if trimStr rest = "--" then "" else rest
      (buf2, if bodies.isEmpty then none else some bodies)

/-- The full chunk scan: fold `stepBuf` over the incoming chunks from
an empty buffer, collecting the emitted batches and returning the final
(unparsed, dropped) buffer. -/
def parseChunksAux (boundary buf : String) :
    List String → List (List String) × String
  | [] => ([], buf)
  | c :: cs =>
      let s := stepBuf boundary buf c
      let r := parseChunksAux boundary s.1 cs
      (match s.2 with
       | some b => b :: r.1
       | none => r.1, r.2)

/-- The batches of part bodies the parser yields for a chunk sequence.
When the chunk iterator finishes, the remaining buffer is dropped. -/
def parseChunks (boundary : String) (chunks : List String) : List (List String) :=
  (parseChunksAux boundary "" chunks).1

/-- The unparsed remainder left in the buffer after all chunks. -/
def finalBuffer (boundary : String) (chunks : List String) : String :=
  (parseChunksAux boundary "" chunks).2

/-! ## Incremental merger (`generateRequestStream`, multipart branch) -/

/-- One entry of `dataArray` (`graphql-client.ts` lines 335–366). -/
structure StreamDatum where
  data : JValue
  errors : Option (List JValue)
  extensions : Option JValue
  hasNext : Bool
deriving Repr

/-- Mapping of one parsed payload into a `dataArray` entry
(`graphql-client.ts` lines 352–366): lift `data` along `path` when both
are present, default missing data to `{}`, keep `errors` when present
and `extensions` when valid. -/
def mkDatum (p : StreamPayload) : StreamDatum :=
  { data :=
      match p.data, p.path with
      | some d, some pa => buildDataObjectByPath pa d
      | some d, none => d
      | none, _ => .obj []
    errors := p.errors
    extensions := validJ p.extensions
    hasNext := p.hasNext }

/-- The stream accumulator (`combinedData`, `responseExtensions`,
`streamHasNext`), confined to one stream. -/
structure MergeState where
  combinedData : JValue
  responseExtensions : Option JValue
  streamHasNext : Bool
deriving Repr

/-- The initial accumulator: empty data, no extensions, `hasNext`
pending (`true`). -/
def initMergeState : MergeState :=
  { combinedData := .obj [], responseExtensions := none, streamHasNext := true }

/-- An error thrown inside the stream loop, with the optional
`graphQLErrors` cause. -/
structure StreamErr where
  message : String
  graphQLErrors : Option (List JValue)
deriving Repr

/-- The runtime failure of `dataArray.slice(-1)[0].hasNext` on an empty
batch. -/
def emptyBatchCrash : StreamErr :=
  { message := "Cannot read properties of undefined (reading 'hasNext')"
    graphQLErrors := none }

/-- One yielded stream snapshot. -/
structure SnapshotM where
  data : Option JValue
  extensions : Option JValue
  errors : Option ResponseErrorsM
  hasNext : Bool
deriving Repr

/-- Processing of one batch of parsed payloads
(`graphql-client.ts` lines 335–400): build `dataArray`, adopt the first
present extensions (falling back to the prior value), collect non-empty
error lists, deep-merge the data into `combinedData`, take `hasNext`
from the last entry, then throw on collected errors or on empty
combined data, otherwise yield a snapshot.  The returned state carries
the assignments made before any throw. -/
def processBatch (st : MergeState) (batch : List StreamPayload) :
    MergeState × Except StreamErr SnapshotM :=
  let dataArray := batch.map mkDatum
  let newExt := (dataArray.findSome? (fun d => d.extensions)).or st.responseExtensions
  let responseErrors :=
    (((dataArray.map (fun d => d.errors)).filterMap id).filter
      (fun e => e.length > 0)).flatten
  let newData := buildCombinedDataObject (st.combinedData :: dataArray.map (fun d => d.data))
  match dataArray.getLast? with
  | none =>
      ({ st with combinedData := newData, responseExtensions := newExt },
        .error emptyBatchCrash)
  | some last =>
      let st2 : MergeState :=
        { combinedData := newData, responseExtensions := newExt
          streamHasNext := last.hasNext }
      if !responseErrors.isEmpty then
        (st2, .error { message := GQL_API_ERROR, graphQLErrors := some responseErrors })
      else if jsKeysEmpty newData then
        (st2, .error { message := NO_DATA_OR_ERRORS_ERROR, graphQLErrors := none })
      else
        (st2, .ok { data := validJ (some newData)
                    extensions := st2.responseExtensions
                    errors := none
                    hasNext := last.hasNext })

/-- The loop over all batches: fold `processBatch` collecting the
yielded snapshots; stop at the first thrown error, returning the state
reached at the throw. -/
def foldBatches (st : MergeState) :
    List (List StreamPayload) → MergeState × List SnapshotM × Option StreamErr
  | [] => (st, [], none)
  | b :: bs =>
      match processBatch st b with
      | (st2, .ok snap) =>
          let r := foldBatches st2 bs
          (r.1, snap :: r.2.1, r.2.2)
      | (st2, .error e) => (st2, [], some e)

/-- The final error snapshot yielded by the catch block
(`graphql-client.ts` lines 406–419): current partial data and
extensions, the formatted message with the response status, optional
`graphQLErrors`, and `hasNext: false`. -/
def errorSnapshot (status : Nat) (st : MergeState) (e : StreamErr) : SnapshotM :=
  { data := validJ (some st.combinedData)
    extensions := st.responseExtensions
    errors := some
      { networkStatusCode := some status
        message := some (formatErrorMessage e.message)
        graphQLErrors := (e.graphQLErrors.map JValue.arr)
        response := none }
    hasNext := false }

/-- The complete sequence of snapshots yielded by the multipart stream
iterator (`graphql-client.ts` lines 326–421): the snapshots of the
successfully processed batches, then — when a batch threw, or when the
chunk iterator finished while `streamHasNext` was still `true` — one
final error snapshot. -/
def runStream (status : Nat) (batches : List (List StreamPayload)) : List SnapshotM :=
  let r := foldBatches initMergeState batches
  match r.2.2 with
  | some e => r.2.1 ++ [errorSnapshot status r.1 e]
  | none =>
      if r.1.streamHasNext then
        r.2.1 ++ [errorSnapshot status r.1
          { message := "Response stream terminated unexpectedly", graphQLErrors := none }]
      else r.2.1

/-- The try/catch body of `generateRequestStream`: a fetch failure, a
not-ok response and an unsupported content type are thrown and caught
into a single-snapshot stream (the `cause` carries the response status
when a response was thrown); a JSON response yields its processed body
once; a multipart response runs the stream pipeline. -/
def streamBody : Except String HttpResponse → List SnapshotM
  | .error e =>
      [{ data := none, extensions := none
         errors := some
           { networkStatusCode := none
             message := some (formatErrorMessage e)
             graphQLErrors := none, response := none }
         hasNext := false }]
  | .ok r =>
      if !r.ok then
        [{ data := none, extensions := none
           errors := some
             { networkStatusCode := some r.status
               message := some (formatErrorMessage r.statusText)
               graphQLErrors := none, response := none }
           hasNext := false }]
      else if !(strContains r.contentType CONTENT_TYPES_json) &&
          !(strContains r.contentType CONTENT_TYPES_multipart) then
        [{ data := none, extensions := none
           errors := some
             { networkStatusCode := some r.status
               message := some (formatErrorMessage
                 (UNEXPECTED_CONTENT_TYPE_ERROR ++ " " ++ r.contentType))
               graphQLErrors := none, response := none }
           hasNext := false }]
      else if strContains r.contentType CONTENT_TYPES_json then
        let p := processJSONResponse r
        [{ data := p.data, extensions := p.extensions
           errors := p.errors, hasNext := false }]
      else
        runStream r.status r.streamBatches

/-- `generateRequestStream` (`graphql-client.ts` lines 260–440): the
inverse defer guard throws synchronously (`.error`); everything after
it resolves (`.ok`) to the stream of snapshots.  The second component
counts transport attempts. -/
def requestStreamFull (operation : String) (configRetries : Int)
    (overrideRetries : Option Int) (transport : Nat → TransportOutcome) :
    Except String (List SnapshotM) × Nat :=
  if !deferMatch operation then
    (.error (formatErrorMessage
      "This operation does not result in a streamable response - use request() instead."), 0)
  else
    let f := fetchModel configRetries overrideRetries transport
    (.ok (streamBody f.1), f.2)

/-! ## Helper lemmas -/

/-- A message with the client label in front is recognised as already
prefixed. -/
theorem formatErrorMessage_of_prefixed (tail : String) :
    formatErrorMessage (CLIENT ++ tail) = CLIENT ++ tail := by
  unfold formatErrorMessage startsWithStr
  rw [if_pos]
  rw [List.isPrefixOf_iff_prefix]
  show CLIENT.data <+: (CLIENT ++ tail).data
  rw [String.data_append]
  exact List.prefix_append _ _

/-- The network-exhaustion message is not label-prefixed, so
`formatErrorMessage` prepends the label. -/
theorem formatErrorMessage_attempted (tail : String) :
    formatErrorMessage ("Attempted maximum number of " ++ tail) =
      CLIENT ++ ": " ++ ("Attempted maximum number of " ++ tail) := by
  unfold formatErrorMessage startsWithStr
  rw [if_neg]
  intro h
  rw [List.isPrefixOf_iff_prefix] at h
  have hd : ("Attempted maximum number of " ++ tail).toList =
      'A' :: ("ttempted maximum number of ".data ++ tail.data) := by
    show ("Attempted maximum number of " ++ tail).data = _
    rw [String.data_append]
    rfl
  rw [hd] at h
  rcases h with ⟨t, ht⟩
  have hcl : CLIENT.toList = 'G' :: "raphQL Client".data := rfl
  rw [hcl] at ht
  have h0 := congrArg List.head? ht
  simp at h0

/-- The retries-validation message is already label-prefixed. -/
theorem formatErrorMessage_retriesValidationMsg (n : Int) :
    formatErrorMessage (retriesValidationMsg n) = retriesValidationMsg n := by
  have h : retriesValidationMsg n =
      CLIENT ++ (": The provided \"retries\" value (" ++ toString n ++
        ") is invalid - it cannot be less than 0 or greater than 3") := by
    unfold retriesValidationMsg
    simp [String.append_assoc]
  rw [h, formatErrorMessage_of_prefixed]

/-! ## C9 — path lift round-trip -/

/-- C9: for every path and data value, `buildDataObjectByPath path data`
projected back at `path` yields exactly `data`. -/
theorem c9_path_lift_round_trip (path : List PathKey) (data : JValue) :
    getAtPath path (buildDataObjectByPath path data) = some data := by
  induction path generalizing data with
  | nil => rfl
  | cons k rest ih =>
    cases k with
    | key s =>
      simp [buildDataObjectByPath, getAtPath, List.lookup, ih]
    | idx n =>
      have hlen : (List.replicate n JValue.null).length ≤ n := by simp
      simp [buildDataObjectByPath, getAtPath, List.getElem?_append_right hlen, ih]

/-! ## C5 — defer guards -/

/-- C5: an operation matching the textual defer regex makes `request`
throw synchronously with zero transport attempts, and an operation not
matching it makes `requestStream` throw synchronously with zero
transport attempts, independent of the transport. -/
theorem c5_defer_guards (op : String) (cfg : Int) (ov : Option Int)
    (t : Nat → TransportOutcome) :
    (deferMatch op = true →
      requestFull op cfg ov t =
        (.error (formatErrorMessage
          "This operation will result in a streamable response - use requestStream() instead."),
          0)) ∧
    (deferMatch op = false →
      requestStreamFull op cfg ov t =
        (.error (formatErrorMessage
          "This operation does not result in a streamable response - use request() instead."),
          0)) := by
  constructor
  · intro h
    simp [requestFull, h]
  · intro h
    simp [requestStreamFull, h]

/-- Witness for C5 at the concrete operations
`query @defer { x }` (matching) and `query { x }` (not matching). -/
theorem c5_defer_guards_witness :
    deferMatch "query @defer \x7b x \x7d" = true ∧
    deferMatch "query \x7b x \x7d" = false ∧
    requestFull "query @defer \x7b x \x7d" 0 none (fun _ => .threw "boom") =
      (.error (formatErrorMessage
        "This operation will result in a streamable response - use requestStream() instead."),
        0) ∧
    requestStreamFull "query \x7b x \x7d" 0 none (fun _ => .threw "boom") =
      (.error (formatErrorMessage
        "This operation does not result in a streamable response - use request() instead."),
        0) :=
  ⟨rfl, rfl,
    (c5_defer_guards "query @defer \x7b x \x7d" 0 none (fun _ => .threw "boom")).1 rfl,
    (c5_defer_guards "query \x7b x \x7d" 0 none (fun _ => .threw "boom")).2 rfl⟩

/-! ## C1 — request response classification -/

/-- C1: for every response seen by `request`: a not-ok response yields
an error object with the status, the label-prefixed status text and the
response; an ok response without a JSON content type yields the
unexpected-content-type error object; otherwise the parsed body's
`data` and `extensions` are returned when present, and an `errors`
block (status, the GraphQL-API or no-data message, `graphQLErrors` when
applicable, and the response) is attached exactly when the payload has
errors or lacks a data field. -/
theorem c1_request_response_classification (r : HttpResponse) :
    (r.ok = false →
      requestHandle r =
        { data := none, extensions := none
          errors := some
            { networkStatusCode := some r.status
              message := some (formatErrorMessage r.statusText)
              graphQLErrors := none, response := some r } }) ∧
    (r.ok = true → strContains r.contentType CONTENT_TYPES_json = false →
      requestHandle r =
        { data := none, extensions := none
          errors := some
            { networkStatusCode := some r.status
              message := some (formatErrorMessage
                (UNEXPECTED_CONTENT_TYPE_ERROR ++ " " ++ r.contentType))
              graphQLErrors := none, response := some r } }) ∧
    (r.ok = true → strContains r.contentType CONTENT_TYPES_json = true →
      (requestHandle r).data = r.payload.data ∧
      (requestHandle r).extensions = r.payload.extensions ∧
      ((requestHandle r).errors.isSome ↔
        (r.payload.errors.isSome ∨ r.payload.data = none)) ∧
      (∀ e, (requestHandle r).errors = some e →
        e.networkStatusCode = some r.status ∧
        e.message = some (formatErrorMessage
          (if r.payload.errors.isSome then GQL_API_ERROR else NO_DATA_OR_ERRORS_ERROR)) ∧
        e.graphQLErrors = r.payload.errors ∧
        e.response = some r)) := by
  refine ⟨?_, ?_, ?_⟩
  · intro h
    simp [requestHandle, h]
  · intro h hc
    simp [requestHandle, h, hc]
  · intro h hc
    have hr : requestHandle r = processJSONResponse r := by
      simp [requestHandle, h, hc]
    rw [hr]
    by_cases hcond : (r.payload.errors.isSome || r.payload.data.isNone) = true
    · refine ⟨rfl, rfl, ?_, ?_⟩
      · simp [processJSONResponse, hcond]
        rcases Bool.or_eq_true_iff.mp hcond with h1 | h1
        · exact Or.inl h1
        · exact Or.inr (Option.isNone_iff_eq_none.mp h1)
      · intro e he
        simp [processJSONResponse, hcond] at he
        subst he
        exact ⟨rfl, rfl, rfl, rfl⟩
    · have hcond2 : (r.payload.errors.isSome || r.payload.data.isNone) = false :=
        Bool.eq_false_iff.mpr hcond
      have herr : r.payload.errors.isSome = false :=
        (Bool.or_eq_false_iff.mp hcond2).1
      have hdata : r.payload.data.isNone = false :=
        (Bool.or_eq_false_iff.mp hcond2).2
      refine ⟨rfl, rfl, ?_, ?_⟩
      · apply iff_of_false
        · simp [processJSONResponse, hcond2]
        · rintro (h1 | h1)
          · rw [herr] at h1
            exact Bool.false_ne_true h1
          · rw [h1] at hdata
            simp at hdata
      · intro e he
        simp [processJSONResponse, hcond2] at he

/-- A concrete ok JSON response whose payload carries GraphQL errors
and no data. -/
def c1Resp : HttpResponse :=
  { ok := true, status := 200, statusText := "OK"
    contentType := "application/json; charset=utf-8"
    payload := { errors := some (.arr [.str "boom"]), data := none, extensions := none }
    streamBatches := [] }

/-- Witness for C1 at `c1Resp`: the JSON branch applies and the errors
block carries the GraphQL-API message and the payload's errors. -/
theorem c1_request_response_classification_witness :
    c1Resp.ok = true ∧
    strContains c1Resp.contentType CONTENT_TYPES_json = true ∧
    ((requestHandle c1Resp).errors.isSome ↔
      (c1Resp.payload.errors.isSome ∨ c1Resp.payload.data = none)) :=
  ⟨rfl, rfl, ((c1_request_response_classification c1Resp).2.2 rfl rfl).2.2.1⟩

/-! ## C4 — extensions accumulator (corrected) -/

/-- The claim's reading of the accumulator update: the most recent
(last) valid extensions object appearing in the batch. -/
def lastValidExtension (batch : List StreamPayload) : Option JValue :=
  batch.reverse.findSome? (fun p => validJ p.extensions)

/-- A batch whose two payloads both carry (distinct) extensions. -/
def c4Batch : List StreamPayload :=
  [ { data := some (.obj [("a", .str "x")]), path := none, hasNext := true
      extensions := some (.obj [("e", .num 1)]), errors := none },
    { data := some (.obj [("b", .str "y")]), path := none, hasNext := false
      extensions := some (.obj [("e", .num 2)]), errors := none } ]

/-- Counterexample to C4 as stated: on a batch carrying extensions
`(e := 1)` then `(e := 2)`, the accumulator becomes the first one,
`(e := 1)`, not the most recent one `(e := 2)`. -/
theorem c4_counterexample :
    (processBatch initMergeState c4Batch).1.responseExtensions =
      some (.obj [("e", .num 1)]) ∧
    lastValidExtension c4Batch = some (.obj [("e", .num 2)]) ∧
    (JValue.obj [("e", .num 1)]) ≠ (JValue.obj [("e", .num 2)]) := by
  refine ⟨rfl, rfl, ?_⟩
  simp

/-- C4 (amended): the extensions accumulator is updated to the first
(not last) non-null/non-empty extensions object appearing in the batch,
and retains its prior value when no payload in the batch carries valid
extensions. -/
theorem c4_extensions_first_valid_in_batch (st : MergeState)
    (batch : List StreamPayload) :
    (processBatch st batch).1.responseExtensions =
      (batch.findSome? (fun p => validJ p.extensions)).or st.responseExtensions := by
  simp only [processBatch]
  rw [List.findSome?_map]
  have hcomp : ((fun d : StreamDatum => d.extensions) ∘ mkDatum) =
      (fun p : StreamPayload => validJ p.extensions) := rfl
  rw [hcomp]
  cases hl : (batch.map mkDatum).getLast? with
  | none => simp [hl]
  | some last =>
    simp only [hl]
    split
    · rfl
    · split
      · rfl
      · rfl

/-! ## C10 — emitted batches are non-empty -/

/-- A batch emitted by one parser step is non-empty (the
`chunkBodies.length > 0` guard). -/
theorem stepBuf_emit_ne_nil (boundary buf c : String) (batch : List String)
    (h : (stepBuf boundary buf c).2 = some batch) : batch ≠ [] := by
  cases hl : lastIdxStr (buf ++ c) boundary with
  | none =>
    simp only [stepBuf, hl] at h
    exact Option.noConfusion h
  | some j =>
    simp only [stepBuf, hl] at h
    by_cases hb : (chunkBodiesOf boundary (takeStr (buf ++ c) j)).isEmpty
    · simp [hb] at h
    · simp [hb] at h
      rw [← h]
      intro hnil
      rw [hnil] at hb
      exact hb rfl

/-- Every batch in the parser output is non-empty. -/
theorem parseChunksAux_batch_ne_nil (boundary : String) :
    ∀ (chunks : List String) (buf : String) (batch : List String),
      batch ∈ (parseChunksAux boundary buf chunks).1 → batch ≠ [] := by
  intro chunks
  induction chunks with
  | nil =>
    intro buf batch h
    simp [parseChunksAux] at h
  | cons c cs ih =>
    intro buf batch h
    simp only [parseChunksAux] at h
    cases hs : (stepBuf boundary buf c).2 with
    | none =>
      rw [hs] at h
      exact ih _ _ h
    | some b =>
      rw [hs] at h
      rcases List.mem_cons.mp h with rfl | h2
      · exact stepBuf_emit_ne_nil boundary buf c batch hs
      · exact ih _ _ h2

/-- C10: every batch the multipart parser yields is a non-empty list,
so for any list of payloads parsed from it, the merger's access to the
last `dataArray` entry is well-defined. -/
theorem c10_parser_batches_nonempty (boundary : String) (chunks : List String)
    (batch : List String) (h : batch ∈ parseChunks boundary chunks) :
    batch ≠ [] ∧
    (∀ ps : List StreamPayload, ps.length = batch.length →
      ((ps.map mkDatum).getLast?).isSome = true) := by
  have hne : batch ≠ [] := parseChunksAux_batch_ne_nil boundary chunks "" batch h
  refine ⟨hne, ?_⟩
  intro ps hlen
  have hpne : ps ≠ [] := by
    intro hnil
    rw [hnil] at hlen
    exact hne (List.length_eq_zero.mp hlen.symm)
  simp [List.getLast?_isSome, hpne]

/-- Witness for C10: a concrete complete multipart stream yields the
non-empty batch `["A"]`. -/
theorem c10_parser_batches_nonempty_witness :
    (["A"] ∈ parseChunks "--graphql" ["--graphql\r\nh\r\n\r\nA\r\n--graphql--"]) ∧
    ["A"] ≠ ([] : List String) := by
  have hm : ["A"] ∈ parseChunks "--graphql" ["--graphql\r\nh\r\n\r\nA\r\n--graphql--"] := by
    decide
  exact ⟨hm, (c10_parser_batches_nonempty "--graphql"
    ["--graphql\r\nh\r\n\r\nA\r\n--graphql--"] ["A"] hm).1⟩

/-! ## C2 — the parser never yields a partial payload -/

/-- When the working text has no boundary occurrence, the step emits
nothing and keeps the whole text buffered. -/
theorem stepBuf_no_boundary (boundary buf c : String)
    (h : strContains (buf ++ c) boundary = false) :
    stepBuf boundary buf c = (buf ++ c, none) := by
  have hocc : occIdxs (buf ++ c) boundary = [] := by
    unfold strContains firstIdxStr at h
    cases hcase : occIdxs (buf ++ c) boundary with
    | nil => rfl
    | cons a l => rw [hcase] at h; simp at h
  have hlast : lastIdxStr (buf ++ c) boundary = none := by
    unfold lastIdxStr
    rw [hocc]
    rfl
  simp only [stepBuf, hlast]

/-- The parser run on `chunks ++ [x]` is the run on `chunks` extended
by one step from the final buffer. -/
theorem parseChunksAux_cons (boundary buf c : String) (cs : List String) :
    parseChunksAux boundary buf (c :: cs) =
      ((match (stepBuf boundary buf c).2 with
        | some b => b :: (parseChunksAux boundary (stepBuf boundary buf c).1 cs).1
        | none => (parseChunksAux boundary (stepBuf boundary buf c).1 cs).1),
       (parseChunksAux boundary (stepBuf boundary buf c).1 cs).2) := rfl

theorem parseChunksAux_append_single (boundary : String) :
    ∀ (cs : List String) (buf x : String),
      parseChunksAux boundary buf (cs ++ [x]) =
        ((parseChunksAux boundary buf cs).1 ++
          (match (stepBuf boundary (parseChunksAux boundary buf cs).2 x).2 with
           | some b => [b]
           | none => []),
         (stepBuf boundary (parseChunksAux boundary buf cs).2 x).1) := by
  intro cs
  have hnil : ∀ b, parseChunksAux boundary b [] = ([], b) := fun _ => rfl
  induction cs with
  | nil =>
    intro buf x
    rw [List.nil_append, parseChunksAux_cons, hnil, hnil]
    cases hs : (stepBuf boundary buf x).2 <;> simp [hs]
  | cons c cs ih =>
    intro buf x
    rw [List.cons_append, parseChunksAux_cons, ih, parseChunksAux_cons]
    cases hs : (stepBuf boundary buf c).2 <;>
      cases hs2 : (stepBuf boundary (parseChunksAux boundary
        (stepBuf boundary buf c).1 cs).2 x).2 <;> simp [hs, hs2]

/-- C2: (i) whenever a parser step emits a batch, the working text
contains the boundary, the batch is exactly the part bodies of the
prefix up to the last boundary occurrence — every emitted body's
trailing boundary has been seen — and (ii) once the chunk iterator
finishes, the unparsed remainder is dropped: extending the stream by a
final chunk that completes no boundary emits nothing. -/
theorem c2_parser_complete_payloads_only (boundary : String) :
    (∀ buf chunk batch, (stepBuf boundary buf chunk).2 = some batch →
      ∃ j, lastIdxStr (buf ++ chunk) boundary = some j ∧
        boundary.toList.isPrefixOf ((buf ++ chunk).toList.drop j) = true ∧
        batch = chunkBodiesOf boundary (takeStr (buf ++ chunk) j)) ∧
    (∀ chunks extra, strContains (finalBuffer boundary chunks ++ extra) boundary = false →
      parseChunks boundary (chunks ++ [extra]) = parseChunks boundary chunks) := by
  constructor
  · intro buf chunk batch h
    cases hl : lastIdxStr (buf ++ chunk) boundary with
    | none =>
      simp only [stepBuf, hl] at h
      exact Option.noConfusion h
    | some j =>
      simp only [stepBuf, hl] at h
      refine ⟨j, rfl, ?_, ?_⟩
      · have hj : j ∈ occIdxs (buf ++ chunk) boundary :=
          List.mem_of_getLast?_eq_some hl
        have := (List.mem_filter.mp hj).2
        simpa using this
      · by_cases hb : (chunkBodiesOf boundary (takeStr (buf ++ chunk) j)).isEmpty
        · simp [hb] at h
        · simp [hb] at h
          exact h.symm
  · intro chunks extra h
    unfold parseChunks
    rw [parseChunksAux_append_single]
    have hstep := stepBuf_no_boundary boundary (finalBuffer boundary chunks) extra h
    unfold finalBuffer at hstep
    rw [hstep]
    simp

/-- Witness for C2 at a concrete stream: one chunk holding a complete
part emits exactly that part's body, and a trailing chunk that
completes no boundary emits nothing. -/
theorem c2_parser_complete_payloads_only_witness :
    ((stepBuf "--b" "" "--b\r\nh\r\n\r\nA\r\n--b").2 = some ["A"]) ∧
    (∃ j, lastIdxStr ("" ++ "--b\r\nh\r\n\r\nA\r\n--b") "--b" = some j ∧
      "--b".toList.isPrefixOf (("" ++ "--b\r\nh\r\n\r\nA\r\n--b").toList.drop j) = true ∧
      ["A"] = chunkBodiesOf "--b" (takeStr ("" ++ "--b\r\nh\r\n\r\nA\r\n--b") j)) ∧
    (strContains (finalBuffer "--b" ["--b\r\nh\r\n\r\nA\r\n--b"] ++ "tail") "--b" = false) ∧
    parseChunks "--b" (["--b\r\nh\r\n\r\nA\r\n--b"] ++ ["tail"]) =
      parseChunks "--b" ["--b\r\nh\r\n\r\nA\r\n--b"] := by
  refine ⟨by decide, ?_, by decide, ?_⟩
  · exact (c2_parser_complete_payloads_only "--b").1 "" "--b\r\nh\r\n\r\nA\r\n--b" ["A"] (by decide)
  · exact (c2_parser_complete_payloads_only "--b").2 ["--b\r\nh\r\n\r\nA\r\n--b"] "tail" (by decide)

/-! ## C6 / C7 — the retry executor -/

/-- The exhaustion message is label-prefixed by `formatErrorMessage`. -/
theorem formatErrorMessage_maxRetriesMsg (n : Nat) (msg : String) :
    formatErrorMessage (maxRetriesMsg n msg) = CLIENT ++ ": " ++ maxRetriesMsg n msg := by
  have h : maxRetriesMsg n msg =
      "Attempted maximum number of " ++
        (toString n ++ (" network retries. Last message - " ++ msg)) := by
    unfold maxRetriesMsg
    simp [String.append_assoc]
  rw [h, formatErrorMessage_attempted, ← h]

/-- Attempt count is 1 once the counter exceeds the budget. -/
theorem httpFetch_attempts_one (t : Nat → TransportOutcome) (maxR count : Nat)
    (hcount : ¬ count ≤ maxR) :
    (httpFetch t count maxR).2 = 1 := by
  rw [httpFetch]
  cases ht : t count with
  | threw msg =>
    simp only [hcount, dite_false]
    split <;> rfl
  | resp r =>
    have hneg : ¬ ((r.status = 429 ∨ r.status = 503) ∧ count ≤ maxR) :=
      fun hx => hcount hx.2
    simp only [hneg, dite_false]

/-- The executor makes at most `maxRetries + 2 - count` transport
attempts from attempt counter `count`. -/
theorem httpFetch_attempts (t : Nat → TransportOutcome) (maxR : Nat) :
    ∀ (k count : Nat), count ≤ maxR + 1 → maxR + 1 - count ≤ k →
      (httpFetch t count maxR).2 ≤ maxR + 2 - count := by
  intro k
  induction k with
  | zero =>
    intro count h1 h2
    have hcount : ¬ count ≤ maxR := by omega
    have h3 := httpFetch_attempts_one t maxR count hcount
    omega
  | succ k ih =>
    intro count h1 h2
    by_cases hcount : count ≤ maxR
    · rw [httpFetch]
      cases ht : t count with
      | threw msg =>
        simp only [hcount, dite_true]
        have hrec := ih (count + 1) (by omega) (by omega)
        show (httpFetch t (count + 1) maxR).2 + 1 ≤ maxR + 2 - count
        omega
      | resp r =>
        by_cases hr : (r.status = 429 ∨ r.status = 503)
        · have hpos : ((r.status = 429 ∨ r.status = 503) ∧ count ≤ maxR) := ⟨hr, hcount⟩
          simp only [hpos, dite_true]
          have hrec := ih (count + 1) (by omega) (by omega)
          show (httpFetch t (count + 1) maxR).2 + 1 ≤ maxR + 2 - count
          omega
        · have hneg : ¬ ((r.status = 429 ∨ r.status = 503) ∧ count ≤ maxR) :=
            fun hx => hr hx.1
          simp only [hneg, dite_false]
          show (1 : Nat) ≤ maxR + 2 - count
          omega
    · have h3 := httpFetch_attempts_one t maxR count hcount
      omega

/-- When every attempt up to the budget yields a retriable (429/503)
response, the executor returns the last attempt's response with
`maxRetries + 2 - count` attempts. -/
theorem httpFetch_retriable_exhaust (t : Nat → TransportOutcome) (maxR : Nat)
    (r : Nat → HttpResponse)
    (hall : ∀ k, 1 ≤ k → k ≤ maxR + 1 →
      t k = .resp (r k) ∧ ((r k).status = 429 ∨ (r k).status = 503)) :
    ∀ (j count : Nat), 1 ≤ count → count ≤ maxR + 1 → maxR + 1 - count ≤ j →
      httpFetch t count maxR = (.ok (r (maxR + 1)), maxR + 2 - count) := by
  intro j
  induction j with
  | zero =>
    intro count h1 h2 h3
    have hc : count = maxR + 1 := by omega
    have hres := hall count h1 h2
    rw [httpFetch, hres.1]
    have hneg : ¬ ((((r count).status = 429 ∨ (r count).status = 503)) ∧ count ≤ maxR) := by
      intro hx
      omega
    simp only [hneg, dite_false]
    rw [hc]
    have : maxR + 2 - (maxR + 1) = 1 := by omega
    rw [this]
  | succ j ih =>
    intro count h1 h2 h3
    by_cases hcount : count ≤ maxR
    · have hres := hall count h1 h2
      rw [httpFetch, hres.1]
      have hpos : (((r count).status = 429 ∨ (r count).status = 503)) ∧ count ≤ maxR :=
        ⟨hres.2, hcount⟩
      simp only [hpos, dite_true]
      have hrec := ih (count + 1) (by omega) (by omega) (by omega)
      show ((httpFetch t (count + 1) maxR).1, (httpFetch t (count + 1) maxR).2 + 1) = _
      rw [hrec]
      have : maxR + 2 - (count + 1) + 1 = maxR + 2 - count := by omega
      rw [this]
    · have hc : count = maxR + 1 := by omega
      have hres := hall count h1 h2
      rw [httpFetch, hres.1]
      have hneg : ¬ ((((r count).status = 429 ∨ (r count).status = 503)) ∧ count ≤ maxR) :=
        fun hx => hcount hx.2
      simp only [hneg, dite_false]
      rw [hc]
      have h5 : maxR + 2 - (maxR + 1) = 1 := by omega
      rw [h5]

/-- When every attempt up to the budget throws, the executor fails with
the label-prefixed exhaustion message built from the last attempt's
message. -/
theorem httpFetch_threw_exhaust (t : Nat → TransportOutcome) (maxR : Nat)
    (m : Nat → String) (hbudget : 1 ≤ maxR)
    (hall : ∀ k, 1 ≤ k → k ≤ maxR + 1 → t k = .threw (m k)) :
    ∀ (j count : Nat), 1 ≤ count → count ≤ maxR + 1 → maxR + 1 - count ≤ j →
      httpFetch t count maxR =
        (.error (CLIENT ++ ": " ++ maxRetriesMsg maxR (m (maxR + 1))),
          maxR + 2 - count) := by
  intro j
  induction j with
  | zero =>
    intro count h1 h2 h3
    have hc : count = maxR + 1 := by omega
    have hm0 : ¬ maxR = 0 := by omega
    have hcount : ¬ count ≤ maxR := by omega
    rw [httpFetch, hall count h1 h2]
    simp only [hcount, dite_false, hm0, if_false]
    rw [hc, formatErrorMessage_maxRetriesMsg]
    have : maxR + 2 - (maxR + 1) = 1 := by omega
    rw [this]
  | succ j ih =>
    intro count h1 h2 h3
    by_cases hcount : count ≤ maxR
    · rw [httpFetch, hall count h1 h2]
      simp only [hcount, dite_true]
      have hrec := ih (count + 1) (by omega) (by omega) (by omega)
      show ((httpFetch t (count + 1) maxR).1, (httpFetch t (count + 1) maxR).2 + 1) = _
      rw [hrec]
      have : maxR + 2 - (count + 1) + 1 = maxR + 2 - count := by omega
      rw [this]
    · have hc : count = maxR + 1 := by omega
      have hm0 : ¬ maxR = 0 := by omega
      rw [httpFetch, hall count h1 h2]
      simp only [hcount, dite_false, hm0, if_false]
      rw [hc, formatErrorMessage_maxRetriesMsg]
      have : maxR + 2 - (maxR + 1) = 1 := by omega
      rw [this]

/-- C6: a 429/503 response is retried up to the budget and on
exhaustion the last failed response is returned (not thrown); any other
response is returned immediately without retrying; exhaustion of
transport throws raises the label-prefixed error
`Attempted maximum number of <maxRetries> network retries. Last
message - <last message>`. -/
theorem c6_executor_error_surfacing :
    (∀ (t : Nat → TransportOutcome) (maxR : Nat) (r : Nat → HttpResponse),
      (∀ k, 1 ≤ k → k ≤ maxR + 1 →
        t k = .resp (r k) ∧ ((r k).status = 429 ∨ (r k).status = 503)) →
      httpFetch t 1 maxR = (.ok (r (maxR + 1)), maxR + 1)) ∧
    (∀ (t : Nat → TransportOutcome) (maxR : Nat) (r0 : HttpResponse),
      t 1 = .resp r0 → r0.status ≠ 429 → r0.status ≠ 503 →
      httpFetch t 1 maxR = (.ok r0, 1)) ∧
    (∀ (t : Nat → TransportOutcome) (maxR : Nat) (m : Nat → String),
      1 ≤ maxR → (∀ k, 1 ≤ k → k ≤ maxR + 1 → t k = .threw (m k)) →
      httpFetch t 1 maxR =
        (.error (CLIENT ++ ": " ++ maxRetriesMsg maxR (m (maxR + 1))), maxR + 1)) := by
  refine ⟨?_, ?_, ?_⟩
  · intro t maxR r hall
    have h := httpFetch_retriable_exhaust t maxR r hall maxR 1 (by omega) (by omega) (by omega)
    rw [h]
    have : maxR + 2 - 1 = maxR + 1 := by omega
    rw [this]
  · intro t maxR r0 ht h4 h5
    rw [httpFetch, ht]
    have hneg : ¬ ((r0.status = 429 ∨ r0.status = 503) ∧ 1 ≤ maxR) := by
      intro hx
      rcases hx.1 with h | h
      · exact h4 h
      · exact h5 h
    simp only [hneg, dite_false]
  · intro t maxR m hbudget hall
    have h := httpFetch_threw_exhaust t maxR m hbudget hall maxR 1 (by omega) (by omega) (by omega)
    rw [h]
    have : maxR + 2 - 1 = maxR + 1 := by omega
    rw [this]

/-- A concrete 429 response. -/
def c6Resp429 : HttpResponse :=
  { ok := false, status := 429, statusText := "Too Many Requests"
    contentType := "application/json", payload := ⟨none, none, none⟩
    streamBatches := [] }

/-- A concrete 500 response. -/
def c6Resp500 : HttpResponse :=
  { ok := false, status := 500, statusText := "Internal Server Error"
    contentType := "application/json", payload := ⟨none, none, none⟩
    streamBatches := [] }

/-- Witness for C6 at concrete transports with budget 1: constant 429
responses exhaust and return the response with 2 attempts; a 500
response returns immediately with 1 attempt; constant throws exhaust
with the label-prefixed message and 2 attempts. -/
theorem c6_executor_error_surfacing_witness :
    httpFetch (fun _ => .resp c6Resp429) 1 1 = (.ok c6Resp429, 2) ∧
    httpFetch (fun _ => .resp c6Resp500) 1 1 = (.ok c6Resp500, 1) ∧
    httpFetch (fun _ => .threw "fetch failed") 1 1 =
      (.error (CLIENT ++ ": " ++ maxRetriesMsg 1 "fetch failed"), 2) :=
  ⟨(c6_executor_error_surfacing).1 (fun _ => .resp c6Resp429) 1 (fun _ => c6Resp429)
      (fun _ _ _ => ⟨rfl, Or.inl rfl⟩),
   (c6_executor_error_surfacing).2.1 (fun _ => .resp c6Resp500) 1 c6Resp500
      rfl (by decide) (by decide),
   (c6_executor_error_surfacing).2.2 (fun _ => .threw "fetch failed") 1
      (fun _ => "fetch failed") (by omega) (fun _ _ _ => rfl)⟩

/-- C7: an invalid `retries` value is rejected at client construction,
and an invalid per-call override makes every entry point issue zero
transport attempts; every call issues at most `1 + retries` transport
attempts. -/
theorem c7_retries_validation_and_attempt_bound :
    (∀ n : Int, ¬ (0 ≤ n ∧ n ≤ 3) →
      createClientValidation n = .error (retriesValidationMsg n)) ∧
    (∀ (cfg bad : Int) (op : String) (t : Nat → TransportOutcome),
      ¬ (0 ≤ bad ∧ bad ≤ 3) →
      (fetchModel cfg (some bad) t).2 = 0 ∧
      (requestFull op cfg (some bad) t).2 = 0 ∧
      (requestStreamFull op cfg (some bad) t).2 = 0) ∧
    (∀ (cfg : Int) (ov : Option Int) (op : String) (t : Nat → TransportOutcome),
      (fetchModel cfg ov t).2 ≤ 1 + (ov.getD cfg).toNat ∧
      (requestFull op cfg ov t).2 ≤ 1 + (ov.getD cfg).toNat ∧
      (requestStreamFull op cfg ov t).2 ≤ 1 + (ov.getD cfg).toNat) := by
  have hbound : ∀ (cfg : Int) (ov : Option Int) (t : Nat → TransportOutcome),
      (fetchModel cfg ov t).2 ≤ 1 + (ov.getD cfg).toNat := by
    intro cfg ov t
    unfold fetchModel
    cases hv : validateRetries ov with
    | error e => simp
    | ok u =>
      simp only []
      have h := httpFetch_attempts t ((ov.getD cfg).toNat) ((ov.getD cfg).toNat) 1
        (by omega) (by omega)
      omega
  have hinvalid : ∀ (bad : Int), ¬ (0 ≤ bad ∧ bad ≤ 3) →
      validateRetries (some bad) = .error (retriesValidationMsg bad) := by
    intro bad h
    show (if bad < 0 ∨ bad > 3 then Except.error (retriesValidationMsg bad)
      else Except.ok ()) = _
    rw [if_pos (by omega)]
  refine ⟨?_, ?_, ?_⟩
  · intro n h
    unfold createClientValidation
    exact hinvalid n h
  · intro cfg bad op t h
    have hv := hinvalid bad h
    have hf : fetchModel cfg (some bad) t = (.error (retriesValidationMsg bad), 0) := by
      unfold fetchModel
      rw [hv]
    refine ⟨by rw [hf], ?_, ?_⟩
    · unfold requestFull
      by_cases hd : deferMatch op
      · simp [hd]
      · simp [hd, hf]
    · unfold requestStreamFull
      by_cases hd : deferMatch op
      · simp [hd, hf]
      · simp [hd]
  · intro cfg ov op t
    refine ⟨hbound cfg ov t, ?_, ?_⟩
    · unfold requestFull
      by_cases hd : deferMatch op
      · simp [hd]
      · simp only [hd, if_false]
        exact hbound cfg ov t
    · unfold requestStreamFull
      by_cases hd : deferMatch op
      · simp only [hd, Bool.not_true]
        rw [if_neg (by simp)]
        exact hbound cfg ov t
      · simp [hd]

/-- Witness for C7: `retries = 4` is rejected everywhere with zero
attempts, and a valid call with budget 2 against a constantly-throwing
transport makes at most 3 attempts. -/
theorem c7_retries_validation_and_attempt_bound_witness :
    createClientValidation 4 = .error (retriesValidationMsg 4) ∧
    (fetchModel 0 (some 4) (fun _ => .threw "x")).2 = 0 ∧
    (fetchModel 0 (some 2) (fun _ => .threw "x")).2 ≤ 1 + ((some (2 : Int)).getD 0).toNat :=
  ⟨(c7_retries_validation_and_attempt_bound).1 4 (by omega),
   ((c7_retries_validation_and_attempt_bound).2.1 0 4 "q" (fun _ => .threw "x")
      (by omega)).1,
   ((c7_retries_validation_and_attempt_bound).2.2 0 (some 2) "q" (fun _ => .threw "x")).1⟩

/-! ## C3 — stream termination snapshot -/

/-- After processing a non-empty batch, the accumulator's `hasNext` is
the `hasNext` of the batch's last payload (assigned before any throw). -/
theorem processBatch_state_hasNext (st : MergeState) (b : List StreamPayload)
    (last : StreamPayload) (hl : b.getLast? = some last) :
    (processBatch st b).1.streamHasNext = last.hasNext := by
  have hml : (b.map mkDatum).getLast? = some (mkDatum last) := by
    rw [List.getLast?_map, hl]
    rfl
  simp only [processBatch, hml]
  split
  · rfl
  · split
    · rfl
    · rfl

/-- A snapshot yielded by a successful batch carries no errors block. -/
theorem processBatch_ok_errors_none (st : MergeState) (b : List StreamPayload)
    (snap : SnapshotM) (h : (processBatch st b).2 = .ok snap) :
    snap.errors = none := by
  cases hml : (b.map mkDatum).getLast? with
  | none =>
    simp only [processBatch, hml] at h
    exact Except.noConfusion h
  | some last =>
    simp only [processBatch, hml] at h
    split at h
    · exact Except.noConfusion h
    · split at h
      · exact Except.noConfusion h
      · injection h with h4
        rw [← h4]

/-- Unfolding of the batch fold on a successful batch. -/
theorem foldBatches_cons_ok (st st2 : MergeState) (b : List StreamPayload)
    (bs : List (List StreamPayload)) (snap : SnapshotM)
    (hp : processBatch st b = (st2, .ok snap)) :
    foldBatches st (b :: bs) =
      ((foldBatches st2 bs).1, snap :: (foldBatches st2 bs).2.1,
        (foldBatches st2 bs).2.2) := by
  simp only [foldBatches, hp]

/-- Unfolding of the batch fold on a throwing batch. -/
theorem foldBatches_cons_err (st st2 : MergeState) (b : List StreamPayload)
    (bs : List (List StreamPayload)) (e : StreamErr)
    (hp : processBatch st b = (st2, .error e)) :
    foldBatches st (b :: bs) = (st2, [], some e) := by
  simp only [foldBatches, hp]

/-- When no batch throws, the final accumulator's `hasNext` is the
`hasNext` of the last processed payload (the initial value when there
is none). -/
theorem foldBatches_hasNext (batches : List (List StreamPayload)) :
    ∀ (st : MergeState), (foldBatches st batches).2.2 = none →
      (∀ b ∈ batches, b ≠ []) →
      (foldBatches st batches).1.streamHasNext =
        ((batches.flatten.getLast?).map (fun p => p.hasNext)).getD st.streamHasNext := by
  induction batches with
  | nil =>
    intro st hok hne
    rfl
  | cons b bs ih =>
    intro st hok hne
    have hbne : b ≠ [] := hne b (List.mem_cons_self b bs)
    obtain ⟨last, hlast⟩ := Option.isSome_iff_exists.mp (by
      rw [List.getLast?_isSome]
      exact hbne)
    cases hp : processBatch st b with
    | mk st2 res =>
      cases res with
      | error e =>
        rw [foldBatches_cons_err st st2 b bs e hp] at hok
        exact Option.noConfusion hok
      | ok snap =>
        rw [foldBatches_cons_ok st st2 b bs snap hp] at hok ⊢
        have hok2 : (foldBatches st2 bs).2.2 = none := hok
        have ihr := ih st2 hok2 (fun b2 hb2 => hne b2 (List.mem_cons_of_mem _ hb2))
        have hst2 : st2.streamHasNext = last.hasNext := by
          have hh := processBatch_state_hasNext st b last hlast
          rw [hp] at hh
          exact hh
        show (foldBatches st2 bs).1.streamHasNext = _
        rw [ihr, List.flatten_cons, List.getLast?_append]
        cases hf : bs.flatten.getLast? with
        | some x => simp [hf, Option.or]
        | none => simp [hf, Option.or, hlast, hst2]

/-- Snapshots yielded before any throw carry no errors block. -/
theorem foldBatches_snaps_no_errors (batches : List (List StreamPayload)) :
    ∀ (st : MergeState) (s : SnapshotM),
      s ∈ (foldBatches st batches).2.1 → s.errors = none := by
  induction batches with
  | nil =>
    intro st s hs
    simp [foldBatches] at hs
  | cons b bs ih =>
    intro st s hs
    cases hp : processBatch st b with
    | mk st2 res =>
      cases res with
      | error e =>
        rw [foldBatches_cons_err st st2 b bs e hp] at hs
        simp at hs
      | ok snap =>
        rw [foldBatches_cons_ok st st2 b bs snap hp] at hs
        have hs2 : s ∈ snap :: (foldBatches st2 bs).2.1 := hs
        rcases List.mem_cons.mp hs2 with rfl | h2
        · exact processBatch_ok_errors_none st b s (by rw [hp])
        · exact ih st2 s h2

/-- C3: when every batch processes without throwing, the stream yields
the per-batch snapshots and then one final error snapshot — message
`GraphQL Client: Response stream terminated unexpectedly`,
`networkStatusCode` = the response status, `hasNext` = false, carrying
the current partial combined data and extensions — exactly when the
`hasNext` of the last processed payload is still `true`; when it is
`false` the stream ends without any error snapshot. -/
theorem c3_stream_termination (status : Nat) (batches : List (List StreamPayload))
    (hok : (foldBatches initMergeState batches).2.2 = none)
    (hne : ∀ b ∈ batches, b ≠ []) :
    runStream status batches =
      (foldBatches initMergeState batches).2.1 ++
        (if (foldBatches initMergeState batches).1.streamHasNext then
          [{ data := validJ (some (foldBatches initMergeState batches).1.combinedData)
             extensions := (foldBatches initMergeState batches).1.responseExtensions
             errors := some
               { networkStatusCode := some status
                 message := some (formatErrorMessage "Response stream terminated unexpectedly")
                 graphQLErrors := none
                 response := none }
             hasNext := false }]
        else []) ∧
    (foldBatches initMergeState batches).1.streamHasNext =
      ((batches.flatten.getLast?).map (fun p => p.hasNext)).getD true ∧
    (∀ s ∈ (foldBatches initMergeState batches).2.1, s.errors = none) := by
  refine ⟨?_, ?_, ?_⟩
  · simp only [runStream, hok]
    by_cases hnext : (foldBatches initMergeState batches).1.streamHasNext
    · simp only [hnext, if_true]
      rfl
    · simp only [hnext, if_false, Bool.false_eq_true]
      simp
  · exact foldBatches_hasNext batches initMergeState hok hne
  · exact fun s hs => foldBatches_snaps_no_errors batches initMergeState s hs

/-- A concrete one-batch stream whose only payload still has
`hasNext = true` (premature termination, scenario S7). -/
def c3Batches : List (List StreamPayload) :=
  [[{ data := some (.obj [("shop", .obj [("id", .str "1")])]), path := none
      hasNext := true, extensions := none, errors := none }]]

/-- Witness for C3 at `c3Batches`: the batch processes cleanly, and the
stream ends with the premature-termination error snapshot because the
last payload's `hasNext` is still `true`. -/
theorem c3_stream_termination_witness :
    (foldBatches initMergeState c3Batches).2.2 = none ∧
    (∀ b ∈ c3Batches, b ≠ []) ∧
    runStream 200 c3Batches =
      (foldBatches initMergeState c3Batches).2.1 ++
        (if (foldBatches initMergeState c3Batches).1.streamHasNext then
          [{ data := validJ (some (foldBatches initMergeState c3Batches).1.combinedData)
             extensions := (foldBatches initMergeState c3Batches).1.responseExtensions
             errors := some
               { networkStatusCode := some 200
                 message := some (formatErrorMessage "Response stream terminated unexpectedly")
                 graphQLErrors := none
                 response := none }
             hasNext := false }]
        else []) ∧
    (foldBatches initMergeState c3Batches).1.streamHasNext = true :=
  ⟨rfl, by simp [c3Batches],
    (c3_stream_termination 200 c3Batches rfl (by simp [c3Batches])).1, rfl⟩

/-! ## C8 — invalid retries surfacing (corrected) -/

/-- Counterexample to C8 as stated: with an invalid `retries` of `-1`,
`request` does not throw — the validation failure is caught by the
try/catch and `request` resolves with a plain error object carrying the
exact validation message. -/
theorem c8_counterexample :
    (requestFull "query shop" 0 (some (-1)) (fun _ => .threw "never")).1 =
      .ok { data := none, extensions := none
            errors := some
              { networkStatusCode := none
                message := some (retriesValidationMsg (-1))
                graphQLErrors := none, response := none } } := by
  have hd : deferMatch "query shop" = false := by decide
  have hv : validateRetries (some (-1)) = .error (retriesValidationMsg (-1)) := by
    show (if (-1 : Int) < 0 ∨ (-1 : Int) > 3 then
      Except.error (retriesValidationMsg (-1)) else Except.ok ()) = _
    rw [if_pos (by omega)]
  simp [requestFull, hd, fetchModel, hv, requestCatch]

/-- C8 (amended): an invalid per-call `retries` makes `fetch` reject
with the exact validation message; `request` resolves with an error
object carrying that exact message (it does not throw); `requestStream`
resolves to a stream whose only yield is an error snapshot with that
message and `hasNext = false`.  No transport attempt is made. -/
theorem c8_invalid_retries_surfacing (cfg bad : Int) (op : String)
    (t : Nat → TransportOutcome) (h : ¬ (0 ≤ bad ∧ bad ≤ 3)) :
    fetchModel cfg (some bad) t = (.error (retriesValidationMsg bad), 0) ∧
    (deferMatch op = false →
      requestFull op cfg (some bad) t =
        (.ok { data := none, extensions := none
               errors := some
                 { networkStatusCode := none
                   message := some (retriesValidationMsg bad)
                   graphQLErrors := none, response := none } }, 0)) ∧
    (deferMatch op = true →
      requestStreamFull op cfg (some bad) t =
        (.ok [{ data := none, extensions := none
                errors := some
                  { networkStatusCode := none
                    message := some (retriesValidationMsg bad)
                    graphQLErrors := none, response := none }
                hasNext := false }], 0)) := by
  have hv : validateRetries (some bad) = .error (retriesValidationMsg bad) := by
    show (if bad < 0 ∨ bad > 3 then Except.error (retriesValidationMsg bad)
      else Except.ok ()) = _
    rw [if_pos (by omega)]
  have hf : fetchModel cfg (some bad) t = (.error (retriesValidationMsg bad), 0) := by
    unfold fetchModel
    rw [hv]
  refine ⟨hf, ?_, ?_⟩
  · intro hd
    simp [requestFull, hd, hf, requestCatch]
  · intro hd
    simp only [requestStreamFull, hd, Bool.not_true]
    rw [if_neg (by simp)]
    rw [hf]
    simp only [streamBody]
    rw [formatErrorMessage_retriesValidationMsg]

/-- Witness for C8's amended claim at `retries = -1` with both guard
polarities. -/
theorem c8_invalid_retries_surfacing_witness :
    (¬ (0 ≤ (-1 : Int) ∧ (-1 : Int) ≤ 3)) ∧
    requestFull "query shop" 0 (some (-1)) (fun _ => .threw "never") =
      (.ok { data := none, extensions := none
             errors := some
               { networkStatusCode := none
                 message := some (retriesValidationMsg (-1))
                 graphQLErrors := none, response := none } }, 0) ∧
    requestStreamFull "query @defer \x7b shop \x7d" 0 (some (-1))
        (fun _ => .threw "never") =
      (.ok [{ data := none, extensions := none
              errors := some
                { networkStatusCode := none
                  message := some (retriesValidationMsg (-1))
                  graphQLErrors := none, response := none }
              hasNext := false }], 0) :=
  ⟨by omega,
    (c8_invalid_retries_surfacing 0 (-1) "query shop" (fun _ => .threw "never")
      (by omega)).2.1 (by decide),
    (c8_invalid_retries_surfacing 0 (-1) "query @defer \x7b shop \x7d"
      (fun _ => .threw "never") (by omega)).2.2 (by decide)⟩

end GraphQLClientModel
